import Mathlib

/-!
Shallow embedding of `src/glean/src/core/metrics/types/timespan.ts`:
the timespan metric's internal representation, validator, payload
conversion, and the `start`/`stop` state machine with its
first-write-wins storage transform.

JavaScript numbers are modelled as rationals (`ℚ`); raw JSON values
fetched from storage are modelled by the inductive `JSValue`; the
per-metric mutable state (`startTime`, the stored record for one
destination, and the reported non-fatal conditions) is the structure
`MetricState`.  Tasks launched on the dispatcher run one at a time in
submission order, so a sequence of sequential `start()`/`stop()` calls
is modelled by composing the corresponding state-transition functions.
-/

/-- Modelled from the spec: the closed `TimeUnit` enumeration from
`core/metrics/time_unit.ts` (that file is outside `src/`); seven
enumerated values `Nanosecond .. Day`, each a string-valued enum member. -/
inductive TimeUnit where
  | nanosecond
  | microsecond
  | millisecond
  | second
  | minute
  | hour
  | day
deriving DecidableEq, Repr

/-- The string value carried by each `TimeUnit` enum member. -/
def TimeUnit.toStr : TimeUnit → String
  | .nanosecond => "nanosecond"
  | .microsecond => "microsecond"
  | .millisecond => "millisecond"
  | .second => "second"
  | .minute => "minute"
  | .hour => "hour"
  | .day => "day"

/-- `Object.values(TimeUnit)`: the list of the seven enum string values. -/
def timeUnitValues : List String :=
  ["nanosecond", "microsecond", "millisecond", "second", "minute", "hour", "day"]

/-- Partial inverse of `TimeUnit.toStr`, used to read a stored unit string
back into the enumeration. -/
def parseTimeUnit (s : String) : Option TimeUnit :=
  if s = "nanosecond" then some .nanosecond
  else if s = "microsecond" then some .microsecond
  else if s = "millisecond" then some .millisecond
  else if s = "second" then some .second
  else if s = "minute" then some .minute
  else if s = "hour" then some .hour
  else if s = "day" then some .day
  else none

/-- A raw JSON-ish value as it comes out of storage (`JSONValue` in
`utils.ts`).  Objects are association lists of named fields. -/
inductive JSValue where
  | null
  | bool (b : Bool)
  | num (q : ℚ)
  | str (s : String)
  | arr (elems : List JSValue)
  | obj (fields : List (String × JSValue))

/-- Field lookup on an object's association list (`v.someKey` / `"k" in v`). -/
def jsLookup (k : String) : List (String × JSValue) → Option JSValue
  | [] => none
  | (k', v) :: rest => if k' = k then some v else jsLookup k rest

/-- Field lookup on an arbitrary value: `none` on non-objects. -/
def jsLookupObj (k : String) (v : JSValue) : Option JSValue :=
  match v with
  | .obj fields => jsLookup k fields
  | _ => none

/-- The internal persisted representation
(`TimespanInternalRepresentation` in `timespan.ts`): the time unit of
the metric at the time of recording and the timespan in milliseconds. -/
structure TimespanInternalRepresentation where
  timeUnit : TimeUnit
  timespan : ℚ
deriving DecidableEq, Repr

/-- `TimespanMetric.validate`: an object with exactly two keys whose
`timeUnit` field is a string among `Object.values(TimeUnit)` and whose
`timespan` field is a number `>= 0`. -/
def validate (v : JSValue) : Bool :=
  match v with
  | .obj fields =>
    if fields.length ≠ 2 then false
    else
      let timeUnitVerification :=
        match jsLookup "timeUnit" fields with
        | some (JSValue.str s) => timeUnitValues.contains s
        | _ => false
      let timespanVerification :=
        match jsLookup "timespan" fields with
        | some (JSValue.num q) => decide (0 ≤ q)
        | _ => false
      if !timeUnitVerification || !timespanVerification then false else true
  | _ => false

/-- `validate` lifted to a possibly-`undefined` argument (`old?: JSONValue`):
`new TimespanMetric(old)` succeeds exactly when this is `true`. -/
def validateOpt (v : Option JSValue) : Bool :=
  match v with
  | some v => validate v
  | none => false

/-- JavaScript `Math.round`: round to nearest integer, ties towards `+∞`. -/
def jsRound (q : ℚ) : ℤ :=
  ⌊q + 1 / 2⌋

/-- `TimespanMetric.payload`: convert the stored milliseconds to the
unit recorded in the representation. -/
def payload (r : TimespanInternalRepresentation) : ℚ :=
  match r.timeUnit with
  | .nanosecond => r.timespan * 10 ^ 6
  | .microsecond => r.timespan * 10 ^ 3
  | .millisecond => r.timespan
  | .second => (jsRound (r.timespan / 1000) : ℚ)
  | .minute => (jsRound (r.timespan / 1000 / 60) : ℚ)
  | .hour => (jsRound (r.timespan / 1000 / 60 / 60) : ℚ)
  | .day => (jsRound (r.timespan / 1000 / 60 / 60 / 24) : ℚ)

/-- Read a raw stored value back into the internal representation
(the cast the database performs when handing `TimespanInternalRepresentation`
to `payload`); succeeds on every value accepted by `validate`. -/
def parseRecord (v : JSValue) : Option TimespanInternalRepresentation :=
  match v with
  | .obj fields =>
    match jsLookup "timeUnit" fields, jsLookup "timespan" fields with
    | some (JSValue.str s), some (JSValue.num q) =>
      (parseTimeUnit s).map (fun tu => ⟨tu, q⟩)
    | _, _ => none
  | _ => none

/-- The object literal `{ timespan: elapsed, timeUnit: this.timeUnit }`
built by `stop()`'s transform when no valid record exists. -/
def mkRecordJS (tu : TimeUnit) (elapsed : ℚ) : JSValue :=
  .obj [("timespan", .num elapsed), ("timeUnit", .str tu.toStr)]

/-- The non-fatal conditions reported via `console.error` in `timespan.ts`. -/
inductive RecordedError where
  | alreadyStarted
  | notRunning
  | negativeTimespan
  | valueAlreadyRecorded
deriving DecidableEq, Repr

/-- Per-metric state for a single destination ping: the transient
`startTime` field, the persisted raw record in the metrics database,
and the non-fatal conditions reported so far. -/
structure MetricState where
  startTime : Option ℚ
  stored : Option JSValue
  errors : List RecordedError

/-- The empty initial state: metric idle, nothing stored, nothing reported. -/
def initState : MetricState :=
  { startTime := none, stored := none, errors := [] }

/-- The transform function built by `TimespanMetricType.stop` and handed to
`Context.metricsDatabase.transform`, together with its effect on the
enclosing environment.  `old` is the current raw stored value (or
`undefined`); `st` is the metric's state visible through `this` (the
function never writes it); `flag` is the closure-captured
`reportValueExists` variable, set to `true` when `new TimespanMetric(old)`
succeeds, i.e. when `validate old` holds (the `Metric` base-class
constructor throwing on an invalid argument is modelled from the spec:
constructing a value and catching the failure detects "already recorded").
Returns the value the database will persist, the metric state after the
call, and the `reportValueExists` variable after the call. -/
def transformFnEff (tu : TimeUnit) (elapsed : ℚ) (old : Option JSValue)
    (st : MetricState) (flag : Bool) : JSValue × MetricState × Bool :=
  match old with
  | some v =>
    if validate v then (v, st, true)
    else (mkRecordJS tu elapsed, st, flag)
  | none => (mkRecordJS tu elapsed, st, flag)

/-- The task launched by `TimespanMetricType.start`: `rec` is the result of
`this.shouldRecord(Context.uploadEnabled)` and `startTime` the timestamp
captured synchronously at call time. -/
def startOp (rec : Bool) (startTime : ℚ) (s : MetricState) : MetricState :=
  if !rec then s
  else
    match s.startTime with
    | some _ => { s with errors := s.errors ++ [.alreadyStarted] }
    | none => { s with startTime := some startTime }

/-- The task launched by `TimespanMetricType.stop`: `rec` is the result of
`this.shouldRecord(Context.uploadEnabled)` and `stopTime` the timestamp
captured synchronously at call time.  The database's `transform` persists
the value returned by the transform function. -/
def stopOp (rec : Bool) (tu : TimeUnit) (stopTime : ℚ) (s : MetricState) :
    MetricState :=
  if !rec then { s with startTime := none }
  else
    match s.startTime with
    | none => { s with errors := s.errors ++ [.notRunning] }
    | some startT =>
      let elapsed := stopTime - startT
      let s1 : MetricState := { s with startTime := none }
      if elapsed < 0 then { s1 with errors := s1.errors ++ [.negativeTimespan] }
      else
        let r := transformFnEff tu elapsed s1.stored s1 false
        let s2 : MetricState := { r.2.1 with stored := some r.1 }
        if r.2.2 then { s2 with errors := s2.errors ++ [.valueAlreadyRecorded] }
        else s2

/-- Modelled from the spec: `Context.metricsDatabase.getMetric` (outside
`src/`) fetches the current raw value for the destination and validates it,
treating an invalid stored value as absent; on success it is handed back at
type `TimespanInternalRepresentation`. -/
def getMetric (stored : Option JSValue) : Option TimespanInternalRepresentation :=
  match stored with
  | some v => if validate v then parseRecord v else none
  | none => none

/-- `TimespanMetricType.testGetValue`: awaits a read of the stored value on
the dispatcher and, if a value was found, converts it with
`TimespanMetric.payload`; returns the (possibly absent) number together
with the metric state after the call. -/
def testGetValue (s : MetricState) : Option ℚ × MetricState :=
  let value := getMetric s.stored
  (value.map payload, s)

/-- The spec's words (§4.4): a candidate raw value is a valid
`DurationRecord` iff it is a structured object with exactly two named
fields, its unit field is a string matching one of the enumerated
`TimeUnit` values, and its magnitude field is a number `>= 0`.  This
definition follows the spec's sentence and is compared with the code's
`validate` by `validate_characterization`. -/
def SpecValidDurationRecord (v : JSValue) : Prop :=
  ∃ fields tu q, v = JSValue.obj fields ∧ fields.length = 2 ∧
    jsLookup "timeUnit" fields = some (JSValue.str tu) ∧ tu ∈ timeUnitValues ∧
    jsLookup "timespan" fields = some (JSValue.num q) ∧ 0 ≤ q

theorem validate_mkRecordJS (tu : TimeUnit) (e : ℚ) (he : 0 ≤ e) :
    validate (mkRecordJS tu e) = true := by
  cases tu <;>
    simp [validate, mkRecordJS, jsLookup, timeUnitValues, TimeUnit.toStr, he]

theorem parseRecord_mkRecordJS (tu : TimeUnit) (e : ℚ) :
    parseRecord (mkRecordJS tu e) = some ⟨tu, e⟩ := by
  cases tu <;> rfl

theorem parseTimeUnit_of_mem (s : String) (h : s ∈ timeUnitValues) :
    ∃ u : TimeUnit, parseTimeUnit s = some u := by
  simp only [timeUnitValues, List.mem_cons, List.mem_singleton,
    List.not_mem_nil, or_false] at h
  rcases h with rfl | rfl | rfl | rfl | rfl | rfl | rfl <;> exact ⟨_, rfl⟩

theorem mem_timeUnitValues_iff_contains (s : String) :
    timeUnitValues.contains s = true ↔ s ∈ timeUnitValues := by
  simp [timeUnitValues]

theorem validate_iff_spec (v : JSValue) :
    validate v = true ↔ SpecValidDurationRecord v := by
  unfold SpecValidDurationRecord
  cases v with
  | obj fields =>
    constructor
    · intro h
      by_cases hl : fields.length = 2
      · rcases hT : jsLookup "timeUnit" fields with _ | vtu
        · simp [validate, hl, hT] at h
        · rcases hS : jsLookup "timespan" fields with _ | vts
          · cases vtu <;> simp [validate, hl, hT, hS] at h
          · cases vtu <;> cases vts <;> simp [validate, hl, hT, hS] at h
            rename_i s q
            refine ⟨fields, s, q, rfl, hl, hT, ?_, hS, h.2⟩
            exact (mem_timeUnitValues_iff_contains s).mp (by simpa using h.1)
      · simp [validate, hl] at h
    · rintro ⟨fields', tu, q, hv, hl, hT, htu, hS, hq⟩
      injection hv with hfe
      subst hfe
      simp [validate, hl, hT, hS, htu, hq]
  | null => simp [validate, SpecValidDurationRecord]
  | bool b => simp [validate, SpecValidDurationRecord]
  | num q => simp [validate, SpecValidDurationRecord]
  | str s => simp [validate, SpecValidDurationRecord]
  | arr xs => simp [validate, SpecValidDurationRecord]

theorem parseRecord_isSome_of_validate (v : JSValue) (h : validate v = true) :
    ∃ r, parseRecord v = some r := by
  obtain ⟨fields, tu, q, rfl, hl, hT, htu, hS, hq⟩ := (validate_iff_spec v).mp h
  obtain ⟨u, hu⟩ := parseTimeUnit_of_mem tu htu
  exact ⟨⟨u, q⟩, by simp [parseRecord, hT, hS, hu]⟩

theorem valid_fields_shape (fields : List (String × JSValue)) (tu : String)
    (q : ℚ) (hl : fields.length = 2)
    (hT : jsLookup "timeUnit" fields = some (JSValue.str tu))
    (hS : jsLookup "timespan" fields = some (JSValue.num q)) :
    fields.map Prod.fst = ["timeUnit", "timespan"] ∨
      fields.map Prod.fst = ["timespan", "timeUnit"] := by
  match fields, hl with
  | [(k1, v1), (k2, v2)], _ =>
    simp only [jsLookup] at hT hS
    by_cases h1 : k1 = "timeUnit"
    · subst h1
      rw [if_neg (by decide : ¬ ("timeUnit" : String) = "timespan")] at hS
      by_cases h2 : k2 = "timespan"
      · subst h2; left; rfl
      · rw [if_neg h2] at hS; exact absurd hS (by simp)
    · rw [if_neg h1] at hT
      by_cases h2 : k2 = "timeUnit"
      · subst h2
        rw [if_neg (by decide : ¬ ("timeUnit" : String) = "timespan")] at hS
        by_cases h1s : k1 = "timespan"
        · subst h1s; right; rfl
        · rw [if_neg h1s] at hS; exact absurd hS (by simp)
      · rw [if_neg h2] at hT; exact absurd hT (by simp)

/-- C1: first-write-wins merge.  The transform function passed by `stop()`
returns the stored value unchanged and flags "already recorded" whenever the
stored value validates as a duration record, and otherwise returns a fresh
record carrying the metric's fixed time unit and the elapsed milliseconds;
consequently, after `start(); stop(); start(); stop()` on the same
destination only the first `stop()`'s elapsed value is stored and
retrievable. -/
theorem timespan_first_write_wins (tu : TimeUnit) (t1 t2 t3 t4 elapsed : ℚ)
    (old : Option JSValue) (st : MetricState) (flag : Bool) (h12 : t1 ≤ t2) :
    (validateOpt old = true →
      ∃ v, old = some v ∧ transformFnEff tu elapsed old st flag = (v, st, true)) ∧
    (validateOpt old = false →
      transformFnEff tu elapsed old st flag = (mkRecordJS tu elapsed, st, flag)) ∧
    (stopOp true tu t4 (startOp true t3
        (stopOp true tu t2 (startOp true t1 initState)))).stored
      = some (mkRecordJS tu (t2 - t1)) ∧
    (testGetValue (stopOp true tu t4 (startOp true t3
        (stopOp true tu t2 (startOp true t1 initState))))).1
      = some (payload ⟨tu, t2 - t1⟩) := by
  have hval : validate (mkRecordJS tu (t2 - t1)) = true :=
    validate_mkRecordJS tu _ (sub_nonneg.mpr h12)
  have h2 : ¬ (t2 - t1 < 0) := not_lt.mpr (sub_nonneg.mpr h12)
  have e1 : startOp true t1 initState
      = { startTime := some t1, stored := none, errors := [] } := rfl
  have e2 : stopOp true tu t2 { startTime := some t1, stored := none, errors := [] }
      = { startTime := none, stored := some (mkRecordJS tu (t2 - t1)),
          errors := [] } := by
    simp [stopOp, transformFnEff, h2]
  have e3 : startOp true t3
        { startTime := none, stored := some (mkRecordJS tu (t2 - t1)), errors := [] }
      = { startTime := some t3, stored := some (mkRecordJS tu (t2 - t1)),
          errors := [] } := rfl
  have e4 : (stopOp true tu t4
        { startTime := some t3, stored := some (mkRecordJS tu (t2 - t1)),
          errors := [] }).stored
      = some (mkRecordJS tu (t2 - t1)) := by
    by_cases h4 : t4 - t3 < 0
    · simp [stopOp, h4]
    · simp [stopOp, transformFnEff, h4, hval]
  refine ⟨?_, ?_, ?_, ?_⟩
  · intro hv
    cases old with
    | none => simp [validateOpt] at hv
    | some v =>
      refine ⟨v, rfl, ?_⟩
      simp only [validateOpt] at hv
      simp [transformFnEff, hv]
  · intro hv
    cases old with
    | none => rfl
    | some v =>
      simp only [validateOpt] at hv
      simp [transformFnEff, hv]
  · rw [e1, e2, e3]; exact e4
  · rw [e1, e2, e3]
    simp only [testGetValue]
    rw [e4]
    simp [getMetric, hval, parseRecord_mkRecordJS]

/-- Witness for `timespan_first_write_wins` at `tu = millisecond`,
`t1 = 100`, `t2 = 340`, `t3 = 400`, `t4 = 500`, `elapsed = 5`,
`old = some (mkRecordJS millisecond 7)`, `st = initState`, `flag = false`. -/
theorem timespan_first_write_wins_witness :
    (100 : ℚ) ≤ 340 ∧
    ((validateOpt (some (mkRecordJS .millisecond 7)) = true →
        ∃ v, (some (mkRecordJS .millisecond 7) : Option JSValue) = some v ∧
          transformFnEff .millisecond 5 (some (mkRecordJS .millisecond 7))
              initState false
            = (v, initState, true)) ∧
      (validateOpt (some (mkRecordJS .millisecond 7)) = false →
        transformFnEff .millisecond 5 (some (mkRecordJS .millisecond 7))
            initState false
          = (mkRecordJS .millisecond 5, initState, false)) ∧
      (stopOp true .millisecond 500 (startOp true 400
          (stopOp true .millisecond 340 (startOp true 100 initState)))).stored
        = some (mkRecordJS .millisecond (340 - 100)) ∧
      (testGetValue (stopOp true .millisecond 500 (startOp true 400
          (stopOp true .millisecond 340 (startOp true 100 initState))))).1
        = some (payload ⟨.millisecond, 340 - 100⟩)) :=
  ⟨by decide,
    timespan_first_write_wins .millisecond 100 340 400 500 5
      (some (mkRecordJS .millisecond 7)) initState false (by decide)⟩

/-- C2 counterexample: the transform function is not pure in the claimed
sense — invoking it on a valid stored value flips the closure-captured
`reportValueExists` variable from `false` to `true`, a change of program
state outside the function besides its return value. -/
theorem transform_purity_counterexample :
    (transformFnEff .millisecond 5 (some (mkRecordJS .millisecond 7))
        initState false).2.2 ≠ false := by decide

/-- C2 amended: the transform function's only effect besides its return
value is setting the closure-captured `reportValueExists` variable to
`true` when the current stored value validates; it never writes any field
of the metric's state, and the value it returns does not depend on that
variable or on the metric's state. -/
theorem transform_effect_characterization (tu : TimeUnit) (elapsed : ℚ)
    (old : Option JSValue) (st st' : MetricState) (flag flag' : Bool) :
    (transformFnEff tu elapsed old st flag).2.1 = st ∧
    (transformFnEff tu elapsed old st flag).2.2 = (validateOpt old || flag) ∧
    (transformFnEff tu elapsed old st flag).1
      = (transformFnEff tu elapsed old st' flag').1 := by
  cases old with
  | none => exact ⟨rfl, rfl, rfl⟩
  | some v =>
    cases hvb : validate v <;> simp [transformFnEff, validateOpt, hvb]

/-- C3: `validate` returns `true` exactly on the values the spec describes
as valid duration records — a structured object with exactly two named
fields whose unit field is a string among the seven enumerated `TimeUnit`
values and whose magnitude field is a number `>= 0` — and, being a total
function to `Bool`, it rejects every other value without throwing. -/
theorem validate_characterization (v : JSValue) :
    validate v = true ↔ SpecValidDurationRecord v :=
  validate_iff_spec v

/-- C4 counterexample: the persisted record's magnitude field is named
`timespan`, not `durationMillis` — a record built by `stop()`'s transform
is accepted by the validator yet has no `durationMillis` field, while the
shape `{timeUnit, durationMillis}` claimed by the spec is rejected. -/
theorem persisted_field_name_counterexample :
    validate (mkRecordJS .second 5) = true ∧
    jsLookupObj "durationMillis" (mkRecordJS .second 5) = none ∧
    validate (JSValue.obj [("timeUnit", JSValue.str "second"),
      ("durationMillis", JSValue.num 5)]) = false :=
  ⟨by decide, rfl, by decide⟩

/-- C4 amended: the internal persisted record has exactly the two fields
named `timeUnit` and `timespan`; every value accepted by the validator
carries its magnitude under the field name `timespan`, and so does every
record constructed by `stop()`'s merge function. -/
theorem persisted_record_shape (v : JSValue) (h : validate v = true)
    (tu : TimeUnit) (e : ℚ) :
    (∃ fields s q, v = JSValue.obj fields ∧
      (fields.map Prod.fst = ["timeUnit", "timespan"] ∨
        fields.map Prod.fst = ["timespan", "timeUnit"]) ∧
      jsLookup "timeUnit" fields = some (JSValue.str s) ∧
      jsLookup "timespan" fields = some (JSValue.num q)) ∧
    mkRecordJS tu e = JSValue.obj [("timespan", JSValue.num e),
      ("timeUnit", JSValue.str tu.toStr)] := by
  refine ⟨?_, rfl⟩
  obtain ⟨fields, s, q, rfl, hl, hT, hmem, hS, hq⟩ := (validate_iff_spec v).mp h
  exact ⟨fields, s, q, rfl, valid_fields_shape fields s q hl hT hS, hT, hS⟩

/-- Witness for `persisted_record_shape` at `v = mkRecordJS minute 9`,
`tu = minute`, `e = 9`. -/
theorem persisted_record_shape_witness :
    validate (mkRecordJS .minute 9) = true ∧
    ((∃ fields s q, mkRecordJS .minute 9 = JSValue.obj fields ∧
        (fields.map Prod.fst = ["timeUnit", "timespan"] ∨
          fields.map Prod.fst = ["timespan", "timeUnit"]) ∧
        jsLookup "timeUnit" fields = some (JSValue.str s) ∧
        jsLookup "timespan" fields = some (JSValue.num q)) ∧
      mkRecordJS .minute 9 = JSValue.obj [("timespan", JSValue.num 9),
        ("timeUnit", JSValue.str TimeUnit.minute.toStr)]) :=
  ⟨by decide, persisted_record_shape (mkRecordJS .minute 9) (by decide) .minute 9⟩

/-- C5: `payload` multiplies the stored milliseconds by 1 000 000 for
nanoseconds and by 1 000 for microseconds, is the identity for
milliseconds, and rounds to the nearest integer after dividing by 1 000,
60 000, 3 600 000 and 86 400 000 for seconds, minutes, hours and days
respectively (ties rounding up, as JavaScript's `Math.round` does); in
particular a stored 61500 with unit `Second` yields payload 62. -/
theorem payload_conversion_table (tu : TimeUnit) (ts : ℚ) :
    payload ⟨tu, ts⟩ =
      (match tu with
        | .nanosecond => ts * 1000000
        | .microsecond => ts * 1000
        | .millisecond => ts
        | .second => (jsRound (ts / 1000) : ℚ)
        | .minute => (jsRound (ts / 60000) : ℚ)
        | .hour => (jsRound (ts / 3600000) : ℚ)
        | .day => (jsRound (ts / 86400000) : ℚ)) ∧
    payload ⟨.second, 61500⟩ = 62 := by
  constructor
  · cases tu with
    | nanosecond => show ts * 10 ^ 6 = ts * 1000000; norm_num
    | microsecond => show ts * 10 ^ 3 = ts * 1000; norm_num
    | millisecond => rfl
    | second => rfl
    | minute =>
      show ((jsRound (ts / 1000 / 60) : ℤ) : ℚ) = ((jsRound (ts / 60000) : ℤ) : ℚ)
      rw [show ts / 1000 / 60 = ts / 60000 by ring]
    | hour =>
      show ((jsRound (ts / 1000 / 60 / 60) : ℤ) : ℚ)
          = ((jsRound (ts / 3600000) : ℤ) : ℚ)
      rw [show ts / 1000 / 60 / 60 = ts / 3600000 by ring]
    | day =>
      show ((jsRound (ts / 1000 / 60 / 60 / 24) : ℤ) : ℚ)
          = ((jsRound (ts / 86400000) : ℤ) : ℚ)
      rw [show ts / 1000 / 60 / 60 / 24 = ts / 86400000 by ring]
  · show ((⌊(61500 : ℚ) / 1000 + 1 / 2⌋ : ℤ) : ℚ) = 62
    rw [show (61500 : ℚ) / 1000 + 1 / 2 = ((62 : ℤ) : ℚ) by norm_num,
      Int.floor_intCast]
    norm_num

/-- C6: a `stop()` whose captured stop time precedes the recorded start
time reports the "negative timespan" condition, leaves the stored value
untouched, and still clears `startTime`, returning the metric to idle. -/
theorem negative_elapsed_guard (tu : TimeUnit) (s : MetricState)
    (tStart tStop : ℚ) (hrun : s.startTime = some tStart)
    (hneg : tStop < tStart) :
    stopOp true tu tStop s
      = { startTime := none, stored := s.stored,
          errors := s.errors ++ [RecordedError.negativeTimespan] } := by
  have hn : tStop - tStart < 0 := sub_neg.mpr hneg
  simp [stopOp, hrun, hn]

/-- Witness for `negative_elapsed_guard` at a running state with
`startTime = 10` and a stop at `3`. -/
theorem negative_elapsed_guard_witness :
    (({ startTime := some 10, stored := none, errors := [] } :
        MetricState).startTime = some 10) ∧
    (3 : ℚ) < 10 ∧
    stopOp true .millisecond 3
        { startTime := some 10, stored := none, errors := [] }
      = { startTime := none, stored := none,
          errors := [RecordedError.negativeTimespan] } :=
  ⟨rfl, by decide,
    negative_elapsed_guard .millisecond _ 10 3 rfl (by decide)⟩

/-- C7: a `start()` while the metric is already running reports the
"already started" condition and changes nothing else — the original
`startTime` is preserved and the stored value is untouched. -/
theorem preserve_first_start (s : MetricState) (t0 t : ℚ)
    (hrun : s.startTime = some t0) :
    startOp true t s
        = { s with errors := s.errors ++ [RecordedError.alreadyStarted] } ∧
    (startOp true t s).startTime = some t0 ∧
    (startOp true t s).stored = s.stored := by
  have h1 : startOp true t s
      = { s with errors := s.errors ++ [RecordedError.alreadyStarted] } := by
    simp [startOp, hrun]
  exact ⟨h1, by rw [h1]; exact hrun, by rw [h1]⟩

/-- Witness for `preserve_first_start` at a running state with
`startTime = 7` and a second start at `9`. -/
theorem preserve_first_start_witness :
    (({ startTime := some 7, stored := none, errors := [] } :
        MetricState).startTime = some 7) ∧
    (startOp true 9 { startTime := some 7, stored := none, errors := [] }
        = { startTime := some 7, stored := none,
            errors := [RecordedError.alreadyStarted] } ∧
      (startOp true 9
          { startTime := some 7, stored := none, errors := [] }).startTime
        = some 7 ∧
      (startOp true 9
          { startTime := some 7, stored := none, errors := [] }).stored
        = none) :=
  ⟨rfl, preserve_first_start _ 7 9 rfl⟩

/-- C8: a `stop()` while recording is disabled clears `startTime`, writes
nothing to storage and reports no condition, whatever the prior state. -/
theorem disabled_stop_resets_silently (tu : TimeUnit) (t : ℚ)
    (s : MetricState) :
    stopOp false tu t s
      = { startTime := none, stored := s.stored, errors := s.errors } := rfl

/-- C9: `testGetValue` returns the state unchanged, reading twice gives
the same answer, an absent stored value yields no value, and a stored
value accepted by the validator yields its converted payload. -/
theorem testGetValue_readonly (s : MetricState) :
    (testGetValue s).2 = s ∧
    (testGetValue ((testGetValue s).2)).1 = (testGetValue s).1 ∧
    (s.stored = none → (testGetValue s).1 = none) ∧
    (∀ v, s.stored = some v → validate v = true →
      ∃ r, parseRecord v = some r ∧ (testGetValue s).1 = some (payload r)) := by
  refine ⟨rfl, rfl, ?_, ?_⟩
  · intro h; simp [testGetValue, getMetric, h]
  · intro v hv hval
    obtain ⟨r, hr⟩ := parseRecord_isSome_of_validate v hval
    exact ⟨r, hr, by simp [testGetValue, getMetric, hv, hval, hr]⟩

/-- Witness for `testGetValue_readonly` at a state storing a valid
millisecond record of 240. -/
theorem testGetValue_readonly_witness :
    (testGetValue ⟨none, some (mkRecordJS .millisecond 240), []⟩).2
      = ⟨none, some (mkRecordJS .millisecond 240), []⟩ ∧
    (testGetValue
        ((testGetValue ⟨none, some (mkRecordJS .millisecond 240), []⟩).2)).1
      = (testGetValue ⟨none, some (mkRecordJS .millisecond 240), []⟩).1 ∧
    ((⟨none, some (mkRecordJS .millisecond 240), []⟩ : MetricState).stored
        = none →
      (testGetValue ⟨none, some (mkRecordJS .millisecond 240), []⟩).1 = none) ∧
    (∀ v, (⟨none, some (mkRecordJS .millisecond 240), []⟩ :
          MetricState).stored = some v → validate v = true →
      ∃ r, parseRecord v = some r ∧
        (testGetValue ⟨none, some (mkRecordJS .millisecond 240), []⟩).1
          = some (payload r)) :=
  testGetValue_readonly ⟨none, some (mkRecordJS .millisecond 240), []⟩

/-- C10: a `start()` while recording is disabled returns before touching
any state, so a `startTime` left over from an earlier enabled `start()` is
not cleared — the metric stays running with the original start time —
whereas a disabled `stop()` does clear it. -/
theorem disabled_start_is_full_noop (tu : TimeUnit) (t1 t2 t3 : ℚ) :
    startOp false t2 (startOp true t1 initState) = startOp true t1 initState ∧
    (startOp true t1 initState).startTime = some t1 ∧
    (stopOp false tu t3 (startOp true t1 initState)).startTime = none :=
  ⟨rfl, rfl, rfl⟩
